import Mathlib

/-!
Verification of the to-do application core: the task data model, the
reminder lifecycle operations of src/hooks/useTasks.ts and
src/hooks/useNotifications.ts, and the ordering/filtering policy
(filteredAndSortedTasks) of the main screen.

Modelling conventions:
* Timestamps (Date.now(), createdAt, dueDate) are natural numbers.
* Optional fields (description?, dueDate?, notificationId?) are Option.
* The external expo-notifications scheduler is an abstract function
  (Ext) returning Option String: none models both a rejected schedule
  and a thrown error that the try/catch of scheduleReminder swallows.
* Side effects on the notification collaborator and the persistence
  collaborator are recorded in an effect trace (Eff), in call order.
* JavaScript truthiness is modelled explicitly: a number is falsy when
  it is 0, a string when it is empty, undefined always.
* Array.prototype.sort with a comparator is modelled as the stable
  insertion sort List.insertionSort with the relation cmp a b <= 0
  (keep a before b when the comparator does not order b strictly
  earlier).  ECMAScript requires a stable sort; the comparator of the
  source is not consistent (see cmp below), where the standard leaves
  the order implementation-defined the model is this insertion sort.
-/

namespace Todo

/-- Task record of src/hooks/useTasks.ts.  Priority is the numeric value
of the Priority enum (P1 = 1 .. P4 = 4). -/
structure Task where
  id : String
  title : String
  description : Option String
  completed : Bool
  createdAt : Nat
  dueDate : Option Nat
  priority : Nat
  projectId : String
  notificationId : Option String
deriving DecidableEq

/-- One recorded side effect on a collaborator: a notification schedule
request, a notification cancellation, or a whole-list persistence save. -/
inductive Eff where
  | schedule (title body : String) (date : Nat)
  | cancel (id : String)
  | save (tasks : List Task)
deriving DecidableEq

/-- Abstract external scheduler (expo Notifications.scheduleNotificationAsync):
given title, body and the trigger timestamp it returns the identifier of the
scheduled notification, or none on failure. -/
def Ext : Type := String → String → Nat → Option String

/-- JavaScript truthiness of a string | undefined value: undefined and the
empty string are falsy. -/
def strTruthy : Option String → Bool
  | some s => !s.isEmpty
  | none => false

/-- JavaScript truthiness of a number | undefined value: undefined and 0 are
falsy. -/
def numTruthy : Option Nat → Bool
  | some n => n != 0
  | none => false

/-- scheduleReminder of src/hooks/useNotifications.ts: returns null without
calling the external scheduler when the date is not strictly in the future,
otherwise forwards to the external scheduler (recording the call) and
returns its result (none models the catch branch as well). -/
def scheduleReminder (now : Nat) (ext : Ext) (title body : String) (date : Nat) :
    Option String × List Eff :=
  if date ≤ now then (none, [])
  else (ext title body date, [Eff.schedule title body date])

/-- cancelReminder of src/hooks/useNotifications.ts: best effort, records the
cancellation request. -/
def cancelReminder (identifier : String) : List Eff :=
  [Eff.cancel identifier]

/-- addTask of src/hooks/useTasks.ts: if the supplied due date is truthy and
strictly greater than now, call scheduleReminder and keep the returned id if
it is truthy; the new task is prepended and the list saved. -/
def addTask (now : Nat) (ext : Ext) (title : String) (description : Option String)
    (dueDate : Option Nat) (priorityArg : Nat) (projectIdArg : String)
    (tasks : List Task) : List Task × List Eff :=
  let (nid, effs) :=
    match dueDate with
    | some d =>
      if d ≠ 0 ∧ now < d then
        let (r, e) := scheduleReminder now ext title "Task is due now!" d
        (match r with
         | some s => if s.isEmpty then none else some s
         | none => none, e)
      else (none, [])
    | none => (none, [])
  let newTask : Task :=
    { id := toString now
      title := title
      description := description
      completed := false
      createdAt := now
      dueDate := dueDate
      priority := priorityArg
      projectId := projectIdArg
      notificationId := nid }
  (newTask :: tasks, effs ++ [Eff.save (newTask :: tasks)])

/-- Replace the first element satisfying p by applying f to it; models
findIndex followed by assignment at that index. -/
def replaceFirst (p : Task → Bool) (f : Task → Task) : List Task → List Task
  | [] => []
  | t :: ts => if p t then f t :: ts else t :: replaceFirst p f ts

/-- updateTaskWithLogic of src/hooks/useTasks.ts (the updateTask actually
exported): a no-op when the id is not found; otherwise, when the due date
changed, cancel a truthy existing notification id, then schedule a new
reminder when the new due date is truthy and strictly in the future, keeping
a truthy returned id; when the due date is unchanged but the title changed
and a truthy notification id exists and the stored due date is truthy and
still in the future, cancel and schedule a replacement, keeping a truthy
returned id.  The updated task keeps its id and createdAt; priority and
projectId fall back to the old values when the arguments are none (the ??
operator).  The new list is saved. -/
def updateTaskWithLogic (now : Nat) (ext : Ext) (id title : String)
    (description : Option String) (dueDate : Option Nat)
    (priorityArg : Option Nat) (projectIdArg : Option String)
    (tasks : List Task) : List Task × List Eff :=
  match tasks.find? (fun t => t.id == id) with
  | none => (tasks, [])
  | some task =>
    let step : Option String × List Eff :=
      if dueDate ≠ task.dueDate then
        let afterCancel : Option String × List Eff :=
          match task.notificationId with
          | some n => if n.isEmpty then (some n, []) else (none, cancelReminder n)
          | none => (none, [])
        match dueDate with
        | some d =>
          if d ≠ 0 ∧ now < d then
            let (r, e) := scheduleReminder now ext title "Task is due now!" d
            (match r with
             | some s => if s.isEmpty then afterCancel.1 else some s
             | none => afterCancel.1, afterCancel.2 ++ e)
          else afterCancel
        | none => afterCancel
      else if title ≠ task.title ∧ strTruthy task.notificationId then
        match task.dueDate with
        | some d =>
          if d ≠ 0 ∧ now < d then
            let (r, e) := scheduleReminder now ext title "Task is due now!" d
            (match r with
             | some s => if s.isEmpty then task.notificationId else some s
             | none => task.notificationId,
             cancelReminder (task.notificationId.getD "") ++ e)
          else (task.notificationId, [])
        | none => (task.notificationId, [])
      else (task.notificationId, [])
    let updatedTask : Task :=
      { task with
        title := title
        description := description
        dueDate := dueDate
        priority := priorityArg.getD task.priority
        projectId := projectIdArg.getD task.projectId
        notificationId := step.1 }
    let newTasks := replaceFirst (fun t => t.id == id) (fun _ => updatedTask) tasks
    (newTasks, step.2 ++ [Eff.save newTasks])

/-- toggleTask of src/hooks/useTasks.ts: a no-op when the id is not found;
otherwise flips completed.  When completing a task with a truthy
notification id, the reminder is cancelled.  When un-completing a task
whose due date is truthy and strictly in the future, scheduleReminder is
invoked (the source then discards the returned id inside an empty .then
callback, so the stored notificationId never changes).  The new list is
saved. -/
def toggleTask (now : Nat) (ext : Ext) (id : String) (tasks : List Task) :
    List Task × List Eff :=
  match tasks.find? (fun t => t.id == id) with
  | none => (tasks, [])
  | some task =>
    let completed := !task.completed
    let effs : List Eff :=
      if completed && strTruthy task.notificationId then
        cancelReminder (task.notificationId.getD "")
      else if !completed && numTruthy task.dueDate
              && decide (now < task.dueDate.getD 0) then
        (scheduleReminder now ext task.title "Task is due now!" (task.dueDate.getD 0)).2
      else []
    let updated := tasks.map (fun t => if t.id == id then { t with completed := completed } else t)
    (updated, effs ++ [Eff.save updated])

/-- deleteTask of src/hooks/useTasks.ts: the Alert confirmation is modelled
by the confirmed flag (Cancel leaves everything untouched); on Delete the
first task with the given id, when present with a truthy notification id,
has its reminder cancelled, every task with the id is removed by filter,
and the resulting list is saved. -/
def deleteTask (id : String) (confirmed : Bool) (tasks : List Task) :
    List Task × List Eff :=
  if confirmed then
    let effs : List Eff :=
      match tasks.find? (fun t => t.id == id) with
      | some task =>
        if strTruthy task.notificationId then cancelReminder (task.notificationId.getD "")
        else []
      | none => []
    let updated := tasks.filter (fun t => !(t.id == id))
    (updated, effs ++ [Eff.save updated])
  else (tasks, [])

/-- Value of the JavaScript expression `t.dueDate && t.dueDate < now` under
strict (!==) comparison: undefined when the due date is absent, the number 0
when the due date is 0 (falsy short-circuit), otherwise the boolean
`dueDate < now`. -/
inductive JSOv where
  | undef
  | zero
  | bfalse
  | btrue
deriving DecidableEq

/-- The overdue value computed by the comparator of filteredAndSortedTasks
for one task. -/
def ovVal (now : Nat) (t : Task) : JSOv :=
  match t.dueDate with
  | none => JSOv.undef
  | some d => if d = 0 then JSOv.zero else if d < now then JSOv.btrue else JSOv.bfalse

/-- Lines 81 to 87 of the comparator: due-date and creation-time tie-break.
Both due dates truthy: difference of the due dates (0 when equal, so the
createdAt tie-break is then never reached); exactly one truthy: the task
with the truthy due date first; neither: descending createdAt. -/
def cmpTail (a b : Task) : Int :=
  if numTruthy a.dueDate && numTruthy b.dueDate then
    (a.dueDate.getD 0 : Int) - (b.dueDate.getD 0 : Int)
  else if numTruthy a.dueDate then -1
  else if numTruthy b.dueDate then 1
  else (b.createdAt : Int) - (a.createdAt : Int)

/-- Line 79 of the comparator: ascending priority when the priorities
differ, otherwise cmpTail. -/
def cmpPrio (a b : Task) : Int :=
  if a.priority ≠ b.priority then (a.priority : Int) - (b.priority : Int)
  else cmpTail a b

/-- Lines 72 to 76 of the comparator: the strict (!==) comparison of the
JavaScript overdue values, where only the value true is truthy; equal
values fall through to the priority comparison. -/
def cmpOv (now : Nat) (a b : Task) : Int :=
  if ovVal now a ≠ ovVal now b then (if ovVal now a = JSOv.btrue then -1 else 1)
  else cmpPrio a b

/-- The comparator of filteredAndSortedTasks (src screen, lines 68 to 88):
completed tasks last, then cmpOv. -/
def cmp (now : Nat) (a b : Task) : Int :=
  if a.completed ≠ b.completed then (if a.completed then 1 else -1)
  else cmpOv now a b

/-- The relation under which the stable sort keeps a before b: the
comparator does not order b strictly earlier than a. -/
def rle (now : Nat) (a b : Task) : Prop := cmp now a b ≤ 0

instance (now : Nat) : DecidableRel (rle now) :=
  fun a b => inferInstanceAs (Decidable (cmp now a b ≤ 0))

/-- The filter step of filteredAndSortedTasks: filter by the selected
project when it is truthy (a non-null, non-empty id). -/
def filterStep (selectedProjectId : Option String) (tasks : List Task) : List Task :=
  match selectedProjectId with
  | some p => if p.isEmpty then tasks else tasks.filter (fun t => t.projectId == p)
  | none => tasks

/-- filteredAndSortedTasks: copy the list, filter, and sort with cmp. -/
def order (now : Nat) (selectedProjectId : Option String) (tasks : List Task) :
    List Task :=
  (filterStep selectedProjectId tasks).insertionSort (rle now)

/-! Transitivity of the keep-before relation of the comparator.  The
comparator is not total: two tasks of equal completion state whose overdue
values are distinct falsy values (undefined, 0, false) get the result 1 in
both argument orders.  The relation cmp a b <= 0 is nevertheless
transitive. -/

theorem cmpTail_trans {a b c : Task} (h1 : cmpTail a b ≤ 0) (h2 : cmpTail b c ≤ 0) :
    cmpTail a c ≤ 0 := by
  unfold cmpTail at h1 h2 ⊢
  cases hta : numTruthy a.dueDate <;> cases htb : numTruthy b.dueDate <;>
    cases htc : numTruthy c.dueDate <;> simp_all <;> omega

theorem cmpPrio_trans {a b c : Task} (h1 : cmpPrio a b ≤ 0) (h2 : cmpPrio b c ≤ 0) :
    cmpPrio a c ≤ 0 := by
  by_cases p1 : a.priority = b.priority <;> by_cases p2 : b.priority = c.priority
  · have p3 : a.priority = c.priority := p1.trans p2
    simp only [cmpPrio, p1, p2, p3, ne_eq, not_true_eq_false, if_false, ite_false] at h1 h2 ⊢
    exact cmpTail_trans h1 h2
  · have h2' : (b.priority : Int) - (c.priority : Int) ≤ 0 := by
      simpa [cmpPrio, p2] using h2
    have p3 : a.priority ≠ c.priority := by omega
    simp only [cmpPrio, p3, ne_eq, if_true, ite_true, not_false_eq_true]
    omega
  · have h1' : (a.priority : Int) - (b.priority : Int) ≤ 0 := by
      simpa [cmpPrio, p1] using h1
    have p3 : a.priority ≠ c.priority := by omega
    simp only [cmpPrio, p3, ne_eq, if_true, ite_true, not_false_eq_true]
    omega
  · have h1' : (a.priority : Int) - (b.priority : Int) ≤ 0 := by
      simpa [cmpPrio, p1] using h1
    have h2' : (b.priority : Int) - (c.priority : Int) ≤ 0 := by
      simpa [cmpPrio, p2] using h2
    have p3 : a.priority ≠ c.priority := by omega
    simp only [cmpPrio, p3, ne_eq, if_true, ite_true, not_false_eq_true]
    omega

theorem cmpOv_btrue_of_le {now : Nat} {a b : Task} (h : cmpOv now a b ≤ 0)
    (hne : ovVal now a ≠ ovVal now b) : ovVal now a = JSOv.btrue := by
  by_contra hx
  simp [cmpOv, hne, hx] at h

theorem cmpOv_trans {now : Nat} {a b c : Task} (h1 : cmpOv now a b ≤ 0)
    (h2 : cmpOv now b c ≤ 0) : cmpOv now a c ≤ 0 := by
  by_cases o1 : ovVal now a = ovVal now b <;> by_cases o2 : ovVal now b = ovVal now c
  · have o3 : ovVal now a = ovVal now c := o1.trans o2
    have h1' : cmpPrio a b ≤ 0 := by simpa [cmpOv, o1] using h1
    have h2' : cmpPrio b c ≤ 0 := by simpa [cmpOv, o2] using h2
    simpa [cmpOv, o3] using cmpPrio_trans h1' h2'
  · have hbt : ovVal now b = JSOv.btrue := cmpOv_btrue_of_le h2 o2
    have hat : ovVal now a = JSOv.btrue := o1.trans hbt
    have hct : ovVal now c ≠ JSOv.btrue := fun hc => o2 (hbt.trans hc.symm)
    have hne : ovVal now a ≠ ovVal now c := fun he => hct (he.symm.trans hat)
    simp [cmpOv, hne, hat, Ne.symm hct]
  · have hat : ovVal now a = JSOv.btrue := cmpOv_btrue_of_le h1 o1
    have hbt : ovVal now b ≠ JSOv.btrue := fun hb => o1 (hat.trans hb.symm)
    have hct : ovVal now c ≠ JSOv.btrue := fun hc => hbt (o2.trans hc)
    have hne : ovVal now a ≠ ovVal now c := fun he => hct (he.symm.trans hat)
    simp [cmpOv, hne, hat, Ne.symm hct]
  · have hat : ovVal now a = JSOv.btrue := cmpOv_btrue_of_le h1 o1
    have hb1 : ovVal now b ≠ JSOv.btrue := fun hb => o1 (hat.trans hb.symm)
    have hb2 : ovVal now b = JSOv.btrue := cmpOv_btrue_of_le h2 o2
    exact absurd hb2 hb1

theorem cmp_trans {now : Nat} {a b c : Task} (h1 : cmp now a b ≤ 0)
    (h2 : cmp now b c ≤ 0) : cmp now a c ≤ 0 := by
  cases ha : a.completed <;> cases hb : b.completed <;> cases hc : c.completed
  · have h1' : cmpOv now a b ≤ 0 := by simpa [cmp, ha, hb] using h1
    have h2' : cmpOv now b c ≤ 0 := by simpa [cmp, hb, hc] using h2
    simpa [cmp, ha, hc] using cmpOv_trans h1' h2'
  · simp [cmp, ha, hc]
  · simp [cmp, hb, hc] at h2
  · simp [cmp, ha, hc]
  · simp [cmp, ha, hb] at h1
  · simp [cmp, ha, hb] at h1
  · simp [cmp, hb, hc] at h2
  · have h1' : cmpOv now a b ≤ 0 := by simpa [cmp, ha, hb] using h1
    have h2' : cmpOv now b c ≤ 0 := by simpa [cmp, hb, hc] using h2
    simpa [cmp, ha, hc] using cmpOv_trans h1' h2'

theorem cmp_refl (now : Nat) (a : Task) : cmp now a a = 0 := by
  simp only [cmp, cmpOv, cmpPrio, ne_eq, not_true_eq_false, if_false, ite_false]
  unfold cmpTail
  cases ht : numTruthy a.dueDate <;> simp [ht]

theorem rle_trans {now : Nat} {a b c : Task} (h1 : rle now a b) (h2 : rle now b c) :
    rle now a c := cmp_trans h1 h2

theorem rle_refl (now : Nat) (a : Task) : rle now a a := by
  unfold rle
  rw [cmp_refl]

/-! Values of the comparator in the cases the claims need. -/

theorem cmp_completed_tf (now : Nat) {a b : Task} (ha : a.completed = true)
    (hb : b.completed = false) : cmp now a b = 1 := by
  simp [cmp, ha, hb]

theorem cmp_completed_ft (now : Nat) {a b : Task} (ha : a.completed = false)
    (hb : b.completed = true) : cmp now a b = -1 := by
  simp [cmp, ha, hb]

theorem cmp_ov_btrue (now : Nat) {a b : Task} (hc : a.completed = b.completed)
    (hne : ovVal now a ≠ ovVal now b) (hat : ovVal now a = JSOv.btrue) :
    cmp now a b = -1 := by
  have hbt : ovVal now b ≠ JSOv.btrue := fun hb => hne (hat.trans hb.symm)
  simp [cmp, cmpOv, hc, hne, hat, Ne.symm hbt]

theorem cmp_ov_not_btrue (now : Nat) {a b : Task} (hc : a.completed = b.completed)
    (hne : ovVal now a ≠ ovVal now b) (hat : ovVal now a ≠ JSOv.btrue) :
    cmp now a b = 1 := by
  simp [cmp, cmpOv, hc, hne, hat]

theorem cmp_prio (now : Nat) {a b : Task} (hc : a.completed = b.completed)
    (ho : ovVal now a = ovVal now b) (hp : a.priority ≠ b.priority) :
    cmp now a b = (a.priority : Int) - (b.priority : Int) := by
  simp [cmp, cmpOv, cmpPrio, hc, ho, hp]

/-! The stable sort never puts a before b when the comparator orders b
strictly before a: the pair relation okPair holds along the output of
insertionSort for any input list, without any totality assumption. -/

/-- a may stay before b under the comparator: keeping a first is allowed
(cmp a b <= 0), or the comparator does not allow b first either. -/
def okPair (now : Nat) (a b : Task) : Prop := rle now a b ∨ ¬ rle now b a

theorem pairwise_okPair_orderedInsert {now : Nat} (a : Task) {l : List Task}
    (h : l.Pairwise (okPair now)) :
    (l.orderedInsert (rle now) a).Pairwise (okPair now) := by
  induction l with
  | nil => simp [okPair]
  | cons b m ih =>
    rcases List.pairwise_cons.mp h with ⟨hb, hm⟩
    by_cases hr : rle now a b
    · rw [List.orderedInsert, if_pos hr]
      refine List.pairwise_cons.mpr ⟨?_, h⟩
      intro x hx
      rcases List.mem_cons.mp hx with rfl | hxm
      · exact Or.inl hr
      · rcases hb x hxm with hbx | hxb
        · exact Or.inl (rle_trans hr hbx)
        · exact Or.inr fun hxa => hxb (rle_trans hxa hr)
    · rw [List.orderedInsert, if_neg hr]
      refine List.pairwise_cons.mpr ⟨?_, ih hm⟩
      intro x hx
      rcases (List.mem_orderedInsert _).mp hx with rfl | hxm
      · exact Or.inr hr
      · exact hb x hxm

theorem pairwise_okPair_insertionSort (now : Nat) (l : List Task) :
    (l.insertionSort (rle now)).Pairwise (okPair now) := by
  induction l with
  | nil => simp
  | cons a l ih =>
    rw [List.insertionSort]
    exact pairwise_okPair_orderedInsert a ih

theorem pairwise_okPair_order (now : Nat) (pf : Option String) (l : List Task) :
    (order now pf l).Pairwise (okPair now) :=
  pairwise_okPair_insertionSort now (filterStep pf l)

/-! Sortedness of the output on inputs whose tasks are pairwise comparable
under the comparator, and idempotence of the sort on such inputs. -/

theorem mem_filterStep {pf : Option String} {l : List Task} {x : Task}
    (hx : x ∈ filterStep pf l) : x ∈ l := by
  rcases pf with _ | p
  · exact hx
  · by_cases hp : p.isEmpty
    · simpa [filterStep, hp] using hx
    · have hx' : x ∈ l ∧ x.projectId = p := by
        simpa [filterStep, hp, List.mem_filter] using hx
      exact hx'.1

theorem sorted_orderedInsert_total {now : Nat} (a : Task) {l : List Task}
    (hs : l.Sorted (rle now)) (ht : ∀ x ∈ l, rle now a x ∨ rle now x a) :
    (l.orderedInsert (rle now) a).Sorted (rle now) := by
  induction l with
  | nil => simp [List.Sorted]
  | cons b m ih =>
    rcases List.sorted_cons.mp hs with ⟨hb, hm⟩
    by_cases hr : rle now a b
    · rw [List.orderedInsert, if_pos hr]
      refine List.sorted_cons.mpr ⟨?_, hs⟩
      intro x hx
      rcases List.mem_cons.mp hx with rfl | hxm
      · exact hr
      · exact rle_trans hr (hb x hxm)
    · rw [List.orderedInsert, if_neg hr]
      have hba : rle now b a := by
        rcases ht b (List.mem_cons_self b m) with h | h
        · exact absurd h hr
        · exact h
      refine List.sorted_cons.mpr ⟨?_, ih hm fun x hx => ht x (List.mem_cons_of_mem b hx)⟩
      intro x hx
      rcases (List.mem_orderedInsert _).mp hx with rfl | hxm
      · exact hba
      · exact hb x hxm

theorem sorted_insertionSort_total {now : Nat} {l : List Task}
    (ht : ∀ x ∈ l, ∀ y ∈ l, rle now x y ∨ rle now y x) :
    (l.insertionSort (rle now)).Sorted (rle now) := by
  induction l with
  | nil => simp [List.Sorted]
  | cons a m ih =>
    rw [List.insertionSort]
    have hm : ∀ x ∈ m, ∀ y ∈ m, rle now x y ∨ rle now y x := fun x hx y hy =>
      ht x (List.mem_cons_of_mem a hx) y (List.mem_cons_of_mem a hy)
    refine sorted_orderedInsert_total a (ih hm) ?_
    intro x hx
    exact ht a (List.mem_cons_self a m) x
      (List.mem_cons_of_mem a ((List.mem_insertionSort _).mp hx))

/-! Helpers for the lifecycle operations. -/

theorem map_replaceFirst_of_find? {β : Type} (F : Task → β) (p : Task → Bool)
    (u : Task) {l : List Task} {a : Task} (hfind : l.find? p = some a)
    (hF : F u = F a) : (replaceFirst p (fun _ => u) l).map F = l.map F := by
  induction l with
  | nil => simp at hfind
  | cons b m ih =>
    by_cases hb : p b
    · rw [List.find?_cons_of_pos m hb] at hfind
      have hab : a = b := by
        injection hfind with h
        exact h.symm
      rw [replaceFirst, if_pos hb]
      simp [hF, hab]
    · rw [List.find?_cons_of_neg m hb] at hfind
      rw [replaceFirst, if_neg hb]
      simp [ih hfind]

theorem find?_append_middle {p : Task → Bool} {l₁ l₂ : List Task} {a : Task}
    (h1 : ∀ t ∈ l₁, p t = false) (ha : p a = true) :
    (l₁ ++ a :: l₂).find? p = some a := by
  induction l₁ with
  | nil => simpa using List.find?_cons_of_pos l₂ ha
  | cons b m ih =>
    have hb : p b = false := h1 b (List.mem_cons_self b m)
    rw [List.cons_append, List.find?_cons_of_neg _ (by simp [hb])]
    exact ih fun t ht => h1 t (List.mem_cons_of_mem b ht)

/-! Concrete tasks used by the counterexamples, the code-evaluation
theorems and the witnesses. -/

/-- Incomplete task without a due date, priority 1 (highest). -/
def taskNoDue : Task :=
  { id := "A"
    title := "A"
    description := none
    completed := false
    createdAt := 1
    dueDate := none
    priority := 1
    projectId := "inbox"
    notificationId := none }

/-- Incomplete task due at 200 (in the future for now = 100), priority 2. -/
def taskFutureDue : Task :=
  { taskNoDue with id := "B", title := "B", createdAt := 2, dueDate := some 200, priority := 2 }

/-- Incomplete task with due-date timestamp 0 (the epoch), priority 1. -/
def taskZeroDue : Task :=
  { taskNoDue with id := "Z", title := "Z", dueDate := some 0 }

/-- Incomplete task due at 50 (in the past for now = 100), priority 2. -/
def taskPastDue : Task :=
  { taskNoDue with id := "P", title := "P", createdAt := 2, dueDate := some 50, priority := 2 }

/-- Incomplete task due at 200 with the same priority as taskNoDue. -/
def taskFutureDueP1 : Task :=
  { taskNoDue with id := "F", title := "F", createdAt := 2, dueDate := some 200 }

/-- Completed task with a stored reminder identifier and a future due date. -/
def taskDone : Task :=
  { id := "t1"
    title := "T"
    description := none
    completed := true
    createdAt := 10
    dueDate := some 200
    priority := 4
    projectId := "inbox"
    notificationId := some "n1" }

/-- Incomplete task with a stored reminder identifier and a past due date. -/
def taskOldReminder : Task :=
  { id := "u1"
    title := "old"
    description := some "d"
    completed := false
    createdAt := 20
    dueDate := some 50
    priority := 3
    projectId := "work"
    notificationId := some "n9" }

/-- External scheduler that always succeeds with the identifier r1. -/
def extOk : Ext := fun _ _ _ => some "r1"

/-- C1 counterexample: taskNoDue (priority 1, no due date) and taskFutureDue
(priority 2, due at 200) are both incomplete, and at now = 100 neither is
overdue in the sense of the claim (a due date strictly before now): one has
no due date, the other is due in the future.  The claim says the
priority-1 task precedes the priority-2 task, but the ordering operation
puts the priority-2 task first, because the comparator compares the
JavaScript overdue values undefined and false with !== and never reaches
the priority comparison. -/
theorem claim1_counterexample :
    order 100 none [taskNoDue, taskFutureDue] = [taskFutureDue, taskNoDue] ∧
    taskNoDue.completed = taskFutureDue.completed ∧
    taskNoDue.priority < taskFutureDue.priority ∧
    taskNoDue.dueDate = none ∧
    taskFutureDue.dueDate = some 200 ∧ ¬(200 < 100) := by decide

/-- C1 (amended): among tasks of equal completion state whose JavaScript
overdue values coincide (both overdue with a nonzero due date, both with a
nonzero non-past due date, both without a due date, or both with due date
0), the output of the ordering operation lists the smaller priority value
first.  A non-overdue task with a due date and one without are not ordered
by priority (their relative order depends on the input order). -/
theorem claim1_priority_within_overdue_class (now : Nat) (pf : Option String)
    (l : List Task) :
    (order now pf l).Pairwise
      (fun a b => a.completed = b.completed → ovVal now a = ovVal now b →
        a.priority ≤ b.priority) := by
  refine List.Pairwise.imp (fun {a b} hok => ?_) (pairwise_okPair_order now pf l)
  intro hc ho
  by_contra hlt
  have hp : a.priority ≠ b.priority := by omega
  rcases hok with h | h
  · have hv := cmp_prio now hc ho hp
    unfold rle at h
    rw [hv] at h
    omega
  · refine h ?_
    unfold rle
    rw [cmp_prio now hc.symm ho.symm (Ne.symm hp)]
    omega

/-- C2 counterexample: taskZeroDue is incomplete with due date 0, which is
strictly before now = 100, so it is overdue in the sense of the claim;
taskFutureDue is incomplete and not overdue (due at 200).  The claim says
the overdue task precedes the non-overdue one, but the ordering operation
puts taskFutureDue first: the JavaScript expression `dueDate && dueDate < now`
short-circuits to the falsy number 0, so the comparator does not treat the
task as overdue. -/
theorem claim2_counterexample :
    order 100 none [taskZeroDue, taskFutureDue] = [taskFutureDue, taskZeroDue] ∧
    taskZeroDue.completed = false ∧ taskFutureDue.completed = false ∧
    taskZeroDue.dueDate = some 0 ∧ (0 : Nat) < 100 ∧
    taskFutureDue.dueDate = some 200 ∧ ¬(200 < 100) := by decide

/-- C2 (amended): among incomplete tasks, a task whose JavaScript overdue
value is true (a nonzero due date strictly before now) precedes every
incomplete task whose overdue value is not true, regardless of priority;
concretely, with A(priority 1, due 200) and B(priority 2, due 50), both
incomplete and now = 100 between the due dates, the output is [B, A]. -/
theorem claim2_overdue_dominates_priority :
    (∀ (now : Nat) (pf : Option String) (l : List Task),
      (order now pf l).Pairwise
        (fun a b => a.completed = false → b.completed = false →
          ovVal now b = JSOv.btrue → ovVal now a = JSOv.btrue)) ∧
    order 100 none [taskFutureDueP1, taskPastDue] = [taskPastDue, taskFutureDueP1] := by
  constructor
  · intro now pf l
    refine List.Pairwise.imp (fun {a b} hok => ?_) (pairwise_okPair_order now pf l)
    intro ha hb hbt
    by_contra hat
    have hne : ovVal now a ≠ ovVal now b := fun he => hat (he.trans hbt)
    have hc : a.completed = b.completed := ha.trans hb.symm
    rcases hok with h | h
    · have hv := cmp_ov_not_btrue now hc hne hat
      unfold rle at h
      rw [hv] at h
      omega
    · refine h ?_
      unfold rle
      rw [cmp_ov_btrue now hc.symm (Ne.symm hne) hbt]
      omega
  · decide

/-- C3: code behaviour at the failing input.  taskDone is completed, holds
the reminder identifier n1 and is due at 200, in the future for now = 100.
Toggling it back to incomplete emits a schedule call to the notification
collaborator (whose returned identifier the source discards inside an empty
then-callback), while the stored reminder identifier stays n1.  The claim
(and the comments of the source itself) say no schedule call is made. -/
theorem claim3_toggle_uncomplete_schedules :
    (toggleTask 100 extOk "t1" [taskDone]).2 =
      [Eff.schedule "T" "Task is due now!" 200,
       Eff.save [{ taskDone with completed := false }]] ∧
    (toggleTask 100 extOk "t1" [taskDone]).1 = [{ taskDone with completed := false }] ∧
    ({ taskDone with completed := false }).notificationId = some "n1" := by decide

/-- C7 counterexample: sorting [taskNoDue, taskFutureDueP1] (both
incomplete, equal priority, one without and one with a future due date)
gives [taskFutureDueP1, taskNoDue]; sorting again swaps the pair back,
because the comparator returns 1 in both argument orders for this pair.
Applying the ordering operation twice differs from applying it once. -/
theorem claim7_counterexample :
    order 100 none (order 100 none [taskNoDue, taskFutureDueP1]) ≠
      order 100 none [taskNoDue, taskFutureDueP1] := by decide

/-- C7 (amended): the ordering operation is idempotent on every list whose
tasks are pairwise comparable under the comparator (no pair of tasks of
equal completion state whose overdue values are distinct falsy values);
on such lists applying it twice equals applying it once, for every project
filter. -/
theorem claim7_idempotent_of_comparable (now : Nat) (pf : Option String)
    (l : List Task)
    (h : l.Pairwise (fun a b => rle now a b ∨ rle now b a)) :
    order now pf (order now pf l) = order now pf l := by
  have hsym : Symmetric (fun a b : Task => rle now a b ∨ rle now b a) :=
    fun a b hab => hab.symm
  have htot : ∀ x ∈ l, ∀ y ∈ l, rle now x y ∨ rle now y x := by
    intro x hx y hy
    by_cases hxy : x = y
    · exact hxy ▸ Or.inl (rle_refl now x)
    · exact h.forall hsym hx hy hxy
  have hts : ∀ x ∈ filterStep pf l, ∀ y ∈ filterStep pf l, rle now x y ∨ rle now y x :=
    fun x hx y hy => htot x (mem_filterStep hx) y (mem_filterStep hy)
  have hsorted : ((filterStep pf l).insertionSort (rle now)).Sorted (rle now) :=
    sorted_insertionSort_total hts
  have hfs : filterStep pf ((filterStep pf l).insertionSort (rle now)) =
      (filterStep pf l).insertionSort (rle now) := by
    rcases pf with _ | p
    · rfl
    · cases hp : p.isEmpty
      · simp only [filterStep, hp, Bool.false_eq_true, if_false]
        refine List.filter_eq_self.mpr ?_
        intro x hx
        exact (List.mem_filter.mp ((List.mem_insertionSort _).mp hx)).2
      · simp [filterStep, hp]
  show (filterStep pf (order now pf l)).insertionSort (rle now) = order now pf l
  rw [show filterStep pf (order now pf l) = order now pf l from hfs]
  exact hsorted.insertionSort_eq

/-- Witness for C7 (amended) at a concrete comparable list. -/
theorem claim7_idempotent_witness :
    order 100 none (order 100 none [taskFutureDueP1, taskPastDue]) =
      order 100 none [taskFutureDueP1, taskPastDue] :=
  claim7_idempotent_of_comparable 100 none [taskFutureDueP1, taskPastDue] (by decide)

/-- C8: in the output of the ordering operation a completed task never
precedes an incomplete one: along the output, once a task is completed all
later tasks are completed. -/
theorem claim8_completed_never_precedes_incomplete (now : Nat) (pf : Option String)
    (l : List Task) :
    (order now pf l).Pairwise (fun a b => a.completed = true → b.completed = true) := by
  refine List.Pairwise.imp (fun {a b} hok => ?_) (pairwise_okPair_order now pf l)
  intro ha
  by_contra hb
  have hb' : b.completed = false := by
    simpa using hb
  rcases hok with h | h
  · have hv := cmp_completed_tf now ha hb'
    unfold rle at h
    rw [hv] at h
    omega
  · refine h ?_
    unfold rle
    rw [cmp_completed_ft now hb' ha]
    omega

/-- C9: the update operation and the toggle operation leave the identifier
and the creation timestamp of every task unchanged: mapping each task to the pair
(id, createdAt) yields the same list before and after either operation. -/
theorem claim9_preserve_id_createdAt (now : Nat) (ext : Ext) (id title : String)
    (description : Option String) (dueDate : Option Nat) (priorityArg : Option Nat)
    (projectIdArg : Option String) (tasks : List Task) :
    ((updateTaskWithLogic now ext id title description dueDate priorityArg
        projectIdArg tasks).1.map (fun t => (t.id, t.createdAt)) =
      tasks.map (fun t => (t.id, t.createdAt))) ∧
    ((toggleTask now ext id tasks).1.map (fun t => (t.id, t.createdAt)) =
      tasks.map (fun t => (t.id, t.createdAt))) := by
  constructor
  · cases hf : tasks.find? (fun t => t.id == id) with
    | none => simp [updateTaskWithLogic, hf]
    | some task =>
      simp only [updateTaskWithLogic, hf]
      exact map_replaceFirst_of_find? _ _ _ hf rfl
  · cases hf : tasks.find? (fun t => t.id == id) with
    | none => simp [toggleTask, hf]
    | some task =>
      simp only [toggleTask, hf]
      rw [List.map_map]
      refine List.map_congr_left ?_
      intro x hx
      by_cases hxid : x.id == id <;> simp [hxid, Function.comp]

/-- C10: on an identifier matching no task in the list, update, toggle and
confirmed delete all leave the task list unchanged. -/
theorem claim10_missing_id_noop (now : Nat) (ext : Ext) (id title : String)
    (description : Option String) (dueDate : Option Nat) (priorityArg : Option Nat)
    (projectIdArg : Option String) (tasks : List Task)
    (h : ∀ t ∈ tasks, (t.id == id) = false) :
    (updateTaskWithLogic now ext id title description dueDate priorityArg
      projectIdArg tasks).1 = tasks ∧
    (toggleTask now ext id tasks).1 = tasks ∧
    (deleteTask id true tasks).1 = tasks := by
  have hf : tasks.find? (fun t => t.id == id) = none :=
    List.find?_eq_none.mpr fun x hx => by simp [h x hx]
  refine ⟨?_, ?_, ?_⟩
  · simp [updateTaskWithLogic, hf]
  · simp [toggleTask, hf]
  · simp only [deleteTask, if_true]
    exact List.filter_eq_self.mpr fun a ha => by simp [h a ha]

theorem isEmpty_false_of_ne {s : String} (hne : s ≠ "") : s.isEmpty = false := by
  cases h : s.isEmpty
  · rfl
  · exact absurd ((String.isEmpty_iff s).mp h) hne

/-- C4: updating a task whose supplied due date differs from the stored one
first cancels the existing reminder (when one is stored), then schedules a
new reminder exactly when the new due date is strictly in the future, and
the updated task stores the identifier the collaborator returned (absent
when no reminder was scheduled or the collaborator failed).  The
hypotheses exclude the degenerate empty-string identifiers that JavaScript
truthiness would treat as absent. -/
theorem claim4_update_due_change (now : Nat) (ext : Ext) (id title : String)
    (description : Option String) (dueDate : Option Nat) (priorityArg : Option Nat)
    (projectIdArg : Option String) (tasks : List Task) (task : Task)
    (hfind : tasks.find? (fun t => t.id == id) = some task)
    (hdue : dueDate ≠ task.dueDate)
    (hnid : task.notificationId ≠ some "")
    (hext : ∀ t b dd, ext t b dd ≠ some "") :
    updateTaskWithLogic now ext id title description dueDate priorityArg
        projectIdArg tasks =
      (replaceFirst (fun t => t.id == id)
        (fun _ =>
          { task with
            title := title
            description := description
            dueDate := dueDate
            priority := priorityArg.getD task.priority
            projectId := projectIdArg.getD task.projectId
            notificationId :=
              match dueDate with
              | some d => if now < d then ext title "Task is due now!" d else none
              | none => none }) tasks,
       (match task.notificationId with
        | some n => [Eff.cancel n]
        | none => []) ++
       (match dueDate with
        | some d => if now < d then [Eff.schedule title "Task is due now!" d] else []
        | none => []) ++
       [Eff.save (replaceFirst (fun t => t.id == id)
        (fun _ =>
          { task with
            title := title
            description := description
            dueDate := dueDate
            priority := priorityArg.getD task.priority
            projectId := projectIdArg.getD task.projectId
            notificationId :=
              match dueDate with
              | some d => if now < d then ext title "Task is due now!" d else none
              | none => none }) tasks)]) := by
  simp only [updateTaskWithLogic, hfind]
  rw [if_pos hdue]
  rcases hn : task.notificationId with _ | n
  · rcases dueDate with _ | d
    · simp
    · by_cases hlt : now < d
      · have hd0 : d ≠ 0 := by omega
        have hnle : ¬ d ≤ now := by omega
        rcases he : ext title "Task is due now!" d with _ | s
        · simp [scheduleReminder, hd0, hlt, hnle, he]
        · have hs : s.isEmpty = false :=
            isEmpty_false_of_ne fun h => hext title "Task is due now!" d (h ▸ he)
          simp [scheduleReminder, hd0, hlt, hnle, he, hs]
      · simp [hlt]
  · have hne : n ≠ "" := fun h => hnid (h ▸ hn)
    have hnise : n.isEmpty = false := isEmpty_false_of_ne hne
    rcases dueDate with _ | d
    · simp [hnise, cancelReminder]
    · by_cases hlt : now < d
      · have hd0 : d ≠ 0 := by omega
        have hnle : ¬ d ≤ now := by omega
        rcases he : ext title "Task is due now!" d with _ | s
        · simp [scheduleReminder, hd0, hlt, hnle, he, hnise, cancelReminder]
        · have hs : s.isEmpty = false :=
            isEmpty_false_of_ne fun h => hext title "Task is due now!" d (h ▸ he)
          simp [scheduleReminder, hd0, hlt, hnle, he, hs, hnise, cancelReminder]
      · simp [hlt, hnise, cancelReminder]

/-- Witness for C4: updating taskOldReminder (reminder n9, due at 50) to a
due date 200 in the future for now = 100 cancels n9, schedules a new
reminder and stores the fresh identifier r1. -/
theorem claim4_update_due_change_witness :
    updateTaskWithLogic 100 extOk "u1" "new" none (some 200) none none
        [taskOldReminder] =
      ([{ taskOldReminder with
          title := "new"
          description := none
          dueDate := some 200
          notificationId := some "r1" }],
       [Eff.cancel "n9", Eff.schedule "new" "Task is due now!" 200,
        Eff.save [{ taskOldReminder with
          title := "new"
          description := none
          dueDate := some 200
          notificationId := some "r1" }]]) :=
  claim4_update_due_change 100 extOk "u1" "new" none (some 200) none none
    [taskOldReminder] taskOldReminder (by decide) (by decide) (by decide)
    (fun t b dd => by simp [extOk])

/-- C5: the add operation stores on the new task exactly the identifier the
collaborator returns when the supplied due date is strictly in the future,
and no identifier otherwise; and scheduleReminder itself returns none for
any timestamp not strictly in the future.  The hypothesis excludes the
degenerate empty-string identifier that JavaScript truthiness would treat
as absent. -/
theorem claim5_add_reminder (now : Nat) (ext : Ext) (title : String)
    (description : Option String) (dueDate : Option Nat) (priorityArg : Nat)
    (projectIdArg : String) (tasks : List Task) (d : Nat)
    (hext : ∀ t b dd, ext t b dd ≠ some "") :
    (addTask now ext title description dueDate priorityArg projectIdArg tasks).1 =
      { id := toString now
        title := title
        description := description
        completed := false
        createdAt := now
        dueDate := dueDate
        priority := priorityArg
        projectId := projectIdArg
        notificationId :=
          match dueDate with
          | some dd => if now < dd then ext title "Task is due now!" dd else none
          | none => none } :: tasks ∧
    (d ≤ now → (scheduleReminder now ext title "Task is due now!" d).1 = none) := by
  constructor
  · rcases dueDate with _ | dd
    · rfl
    · by_cases hlt : now < dd
      · have hd0 : dd ≠ 0 := by omega
        have hnle : ¬ dd ≤ now := by omega
        rcases he : ext title "Task is due now!" dd with _ | s
        · simp [addTask, scheduleReminder, hd0, hlt, hnle, he]
        · have hs : s.isEmpty = false :=
            isEmpty_false_of_ne fun h => hext title "Task is due now!" dd (h ▸ he)
          simp [addTask, scheduleReminder, hd0, hlt, hnle, he, hs]
      · simp [addTask, hlt]
  · intro hd
    simp [scheduleReminder, hd]

/-- Witness for C5: adding with a future due date (200, now = 100) stores
the returned identifier r1, and scheduleReminder returns none at the past
timestamp 50. -/
theorem claim5_add_reminder_witness :
    (addTask 100 extOk "t" none (some 200) 4 "inbox" []).1 =
      [{ id := toString 100
         title := "t"
         description := none
         completed := false
         createdAt := 100
         dueDate := some 200
         priority := 4
         projectId := "inbox"
         notificationId := some "r1" }] ∧
    (50 ≤ 100 → (scheduleReminder 100 extOk "t" "Task is due now!" 50).1 = none) :=
  claim5_add_reminder 100 extOk "t" none (some 200) 4 "inbox" [] 50
    (fun t b dd => by simp [extOk])

/-- C6: deleting a task that is present, on confirmation, cancels its
stored reminder (when one exists), removes exactly that task and saves the
remaining list; declining the confirmation changes nothing and emits no
effect.  The hypotheses say the identifier matches exactly the one listed
task and exclude the degenerate empty-string reminder identifier. -/
theorem claim6_delete (id : String) (task : Task) (l₁ l₂ : List Task)
    (h1 : ∀ t ∈ l₁, (t.id == id) = false)
    (h2 : ∀ t ∈ l₂, (t.id == id) = false)
    (hid : (task.id == id) = true)
    (hnid : task.notificationId ≠ some "") :
    deleteTask id false (l₁ ++ task :: l₂) = (l₁ ++ task :: l₂, []) ∧
    deleteTask id true (l₁ ++ task :: l₂) =
      (l₁ ++ l₂,
       (match task.notificationId with
        | some n => [Eff.cancel n]
        | none => []) ++ [Eff.save (l₁ ++ l₂)]) := by
  have hfind : (l₁ ++ task :: l₂).find? (fun t => t.id == id) = some task :=
    find?_append_middle h1 hid
  have hfilter : (l₁ ++ task :: l₂).filter (fun t => !(t.id == id)) = l₁ ++ l₂ := by
    rw [List.filter_append, List.filter_cons]
    simp only [hid, Bool.not_true, Bool.false_eq_true, if_false]
    rw [List.filter_eq_self.mpr fun a ha => by simp [h1 a ha],
      List.filter_eq_self.mpr fun a ha => by simp [h2 a ha]]
  constructor
  · rfl
  · simp only [deleteTask, if_true, hfind, hfilter]
    rcases hn : task.notificationId with _ | n
    · rfl
    · have hne : n ≠ "" := fun h => hnid (h ▸ hn)
      have hnise : n.isEmpty = false := isEmpty_false_of_ne hne
      simp [strTruthy, hnise, cancelReminder]

/-- Witness for C6: deleting taskDone (reminder n1) from [taskNoDue,
taskDone]: declining keeps the list, confirming cancels n1, removes the
task and saves the remaining list. -/
theorem claim6_delete_witness :
    deleteTask "t1" false [taskNoDue, taskDone] = ([taskNoDue, taskDone], []) ∧
    deleteTask "t1" true [taskNoDue, taskDone] =
      ([taskNoDue], [Eff.cancel "n1", Eff.save [taskNoDue]]) :=
  claim6_delete "t1" taskDone [taskNoDue] [] (by decide) (by decide) (by decide)
    (by decide)

/-- Witness for C10 at a concrete list and missing identifier. -/
theorem claim10_missing_id_witness :
    (updateTaskWithLogic 100 extOk "zzz" "t" none none none none [taskNoDue]).1 =
      [taskNoDue] ∧
    (toggleTask 100 extOk "zzz" [taskNoDue]).1 = [taskNoDue] ∧
    (deleteTask "zzz" true [taskNoDue]).1 = [taskNoDue] :=
  claim10_missing_id_noop 100 extOk "zzz" "t" none none none none [taskNoDue] (by decide)

end Todo
